import Mathlib

/-!
Shallow embedding of the binary metadata decoder of
`image_metadata_extractor.tsx`: byte reader, TIFF/IFD walker, JPEG EXIF
container scan (both near-duplicate copies in the source), bare-TIFF path,
and the XMP packet extractor.  Buffers are lists of natural numbers (one
byte per element); every fallible DataView read returns an `Option`, with
`none` standing for the thrown RangeError.
-/

/-- A raw image buffer: a finite sequence of bytes. -/
abbrev Buf := List Nat

/-- A decoded tag value: a number (uint8/16/32 or rational-as-number),
a string, a boolean, or the JavaScript `null`. -/
inductive TagValue where
  | num (q : ℚ)
  | str (s : String)
  | flag (b : Bool)
  | null
deriving DecidableEq

/-- The mutable `exifData` / `xmpData` record, modelled as an association
list in insertion order. -/
abbrev ExifMap := List (String × TagValue)

/-- JavaScript object property assignment `m[k] = v`: overwrite in place if
the key exists, else append. -/
def setKey (m : ExifMap) (k : String) (v : TagValue) : ExifMap :=
  match m with
  | [] => [(k, v)]
  | (k1, v1) :: rest => if k1 = k then (k, v) :: rest else (k1, v1) :: setKey rest k v

/-- JavaScript object property lookup. -/
def lookupKey (m : ExifMap) (k : String) : Option TagValue :=
  match m with
  | [] => none
  | (k1, v1) :: rest => if k1 = k then some v1 else lookupKey rest k

/-- `DataView.getUint8`: bounds-checked single-byte read. -/
def getUint8? (buf : Buf) (off : Nat) : Option Nat :=
  if off + 1 ≤ buf.length then some (buf.getD off 0) else none

/-- `DataView.getUint16` with an endianness flag (`true` = big-endian). -/
def getUint16? (buf : Buf) (off : Nat) (big : Bool) : Option Nat :=
  if off + 2 ≤ buf.length then
    some (if big then buf.getD off 0 * 256 + buf.getD (off + 1) 0
          else buf.getD (off + 1) 0 * 256 + buf.getD off 0)
  else none

/-- `DataView.getUint32` with an endianness flag (`true` = big-endian). -/
def getUint32? (buf : Buf) (off : Nat) (big : Bool) : Option Nat :=
  if off + 4 ≤ buf.length then
    some (if big then
            ((buf.getD off 0 * 256 + buf.getD (off + 1) 0) * 256 + buf.getD (off + 2) 0) * 256
              + buf.getD (off + 3) 0
          else
            ((buf.getD (off + 3) 0 * 256 + buf.getD (off + 2) 0) * 256 + buf.getD (off + 1) 0) * 256
              + buf.getD off 0)
  else none

/-- `TYPE_SIZES[type] || 1`: byte width of each TIFF type code, defaulting
to 1 for codes outside the table. -/
def getTypeSize (t : Nat) : Nat :=
  if t = 1 then 1 else if t = 2 then 1 else if t = 3 then 2 else if t = 4 then 4
  else if t = 5 then 8 else if t = 6 then 1 else if t = 7 then 1 else if t = 8 then 2
  else if t = 9 then 4 else if t = 10 then 8 else if t = 11 then 4 else if t = 12 then 8
  else 1

/-- `EXIF_TAGS`: the closed registry mapping tag ids to field names. -/
def exifTagPairs : List (Nat × String) :=
  [(0x010F, "Make"), (0x0110, "Model"), (0x0112, "Orientation"),
   (0x011A, "XResolution"), (0x011B, "YResolution"), (0x0128, "ResolutionUnit"),
   (0x0132, "DateTime"), (0x013B, "Artist"), (0x0213, "YCbCrPositioning"),
   (0x8769, "ExifIFDPointer"), (0x8825, "GPSIFDPointer")]

/-- Registry lookup `EXIF_TAGS[tag]`. -/
def exifTagName (tag : Nat) : Option String :=
  (exifTagPairs.find? (fun kv => kv.1 == tag)).map (fun kv => kv.2)

/-- `calculateActualOffset`: inline payload position when
`getTypeSize type * count <= 4`, else `tiffOffset` plus the 32-bit pointer
read at the inline position. -/
def calculateActualOffset (buf : Buf) (valueOffset : Nat) (t count tiffOffset : Nat)
    (big : Bool) : Option Nat :=
  if getTypeSize t * count > 4 then
    match getUint32? buf valueOffset big with
    | none => none
    | some p => some (tiffOffset + p)
  else some valueOffset

/-- The character-accumulating loop of `readAsciiString`: read `n` bytes
starting at `off`, one byte per character. -/
def readAsciiChars (buf : Buf) (off : Nat) : Nat → Option (List Char)
  | 0 => some []
  | n + 1 =>
    match getUint8? buf off with
    | none => none
    | some b =>
      match readAsciiChars buf (off + 1) n with
      | none => none
      | some l => some (Char.ofNat b :: l)

/-- `readAsciiString`: decode `Math.min(count - 1, 100)` bytes byte-by-byte
into a string. -/
def readAsciiString (buf : Buf) (off count : Nat) : Option String :=
  match readAsciiChars buf off (min (count - 1) 100) with
  | none => none
  | some l => some (String.mk l)

/-- `readRationalValue`: two consecutive 32-bit reads; the quotient, or `0`
when the denominator is `0`. -/
def readRationalValue (buf : Buf) (off : Nat) (big : Bool) : Option ℚ :=
  match getUint32? buf off big with
  | none => none
  | some n =>
    match getUint32? buf (off + 4) big with
    | none => none
    | some d => some (if d ≠ 0 then (n : ℚ) / (d : ℚ) else 0)

/-- `getTagValue`: resolve the payload position, then dispatch on the type
code; unknown type codes produce `null`. -/
def getTagValue (buf : Buf) (valueOffset : Nat) (t count tiffOffset : Nat)
    (big : Bool) : Option TagValue :=
  match calculateActualOffset buf valueOffset t count tiffOffset big with
  | none => none
  | some actualOffset =>
    if t = 1 then
      match getUint8? buf actualOffset with
      | none => none
      | some b => some (TagValue.num b)
    else if t = 2 then
      match readAsciiString buf actualOffset count with
      | none => none
      | some s => some (TagValue.str s)
    else if t = 3 then
      match getUint16? buf actualOffset big with
      | none => none
      | some v => some (TagValue.num v)
    else if t = 4 then
      match getUint32? buf actualOffset big with
      | none => none
      | some v => some (TagValue.num v)
    else if t = 5 then
      match readRationalValue buf actualOffset big with
      | none => none
      | some q => some (TagValue.num q)
    else some TagValue.null

/-- `processIfdEntry`: read the entry header (tag, type, count); a header
overrun propagates (`true` in the second component); a registered tag is
decoded, with decode overruns caught at entry level (tag omitted). -/
def processIfdEntry (buf : Buf) (tagOffset tiffOffset : Nat) (big : Bool)
    (exif : ExifMap) : ExifMap × Bool :=
  match getUint16? buf tagOffset big with
  | none => (exif, true)
  | some tag =>
    match getUint16? buf (tagOffset + 2) big with
    | none => (exif, true)
    | some t =>
      match getUint32? buf (tagOffset + 4) big with
      | none => (exif, true)
      | some count =>
        match exifTagName tag with
        | none => (exif, false)
        | some name =>
          match getTagValue buf (tagOffset + 8) t count tiffOffset big with
          | none => (exif, false)
          | some v => (setKey exif name v, false)

/-- The entry loop of `parseIfd`: `for (i = 0; i < n; i++)` over entries at
`ifdOffset + 2 + i * 12`, aborting on a propagated overrun.  The first
`Nat` argument is fuel; callers supply at least `n`, which the guard
`i < n` makes sufficient. -/
def parseIfdGo (buf : Buf) (ifdOffset tiffOffset : Nat) (big : Bool) (n : Nat) :
    Nat → Nat → ExifMap → ExifMap × Bool
  | 0, _, m => (m, false)
  | fuel + 1, i, m =>
    if i < n then
      let r := processIfdEntry buf (ifdOffset + 2 + i * 12) tiffOffset big m
      if r.2 then r else parseIfdGo buf ifdOffset tiffOffset big n fuel (i + 1) r.1
    else (m, false)

/-- `parseIfd`: read the 16-bit entry count, then iterate
`min(tagCount, 50)` entries. -/
def parseIfd (buf : Buf) (ifdOffset tiffOffset : Nat) (big : Bool)
    (m : ExifMap) : ExifMap × Bool :=
  match getUint16? buf ifdOffset big with
  | none => (m, true)
  | some tagCount =>
    parseIfdGo buf ifdOffset tiffOffset big (min tagCount 50) (min tagCount 50) 0 m

/-- Specification-side list of entry offsets an IFD walk visits. -/
def ifdEntryOffsets (ifdOffset n : Nat) : List Nat :=
  (List.range n).map (fun i => ifdOffset + 2 + i * 12)

/-- Running the entry processor over an explicit list of entry offsets,
stopping at the first propagated overrun. -/
def runEntries (buf : Buf) (tiffOffset : Nat) (big : Bool) :
    List Nat → ExifMap → ExifMap × Bool
  | [], m => (m, false)
  | off :: rest, m =>
    let r := processIfdEntry buf off tiffOffset big m
    if r.2 then r else runEntries buf tiffOffset big rest r.1

/-- The short-circuit Exif signature check
`getUint32(i+4) === 0x45786966 && getUint16(i+8) === 0x0000` shared by both
JPEG scan copies (`none` = a read threw). -/
def sigCheckAt (buf : Buf) (i : Nat) : Option Bool :=
  match getUint32? buf (i + 4) true with
  | none => none
  | some w =>
    if w = 0x45786966 then
      match getUint16? buf (i + 8) true with
      | none => none
      | some v => some (v = 0)
    else some false

/-- The pure first-index search for the `0xFF 0xE1` marker pattern from
index `i` (fuel-indexed; the guard `i + 1 < buf.length` makes any fuel of
at least `buf.length - i` sufficient). -/
def markerSearchGo (buf : Buf) : Nat → Nat → Option Nat
  | 0, _ => none
  | fuel + 1, i =>
    if i + 1 < buf.length then
      if buf.getD i 0 = 0xFF ∧ buf.getD (i + 1) 0 = 0xE1 then some i
      else markerSearchGo buf fuel (i + 1)
    else none

/-- First index of the `0xFF 0xE1` marker pattern in `buf`. -/
def markerSearch (buf : Buf) : Option Nat :=
  markerSearchGo buf buf.length 0

/-- First copy's `findExifMarker` loop from index `i`: scan for
`0xFF 0xE1`, keep scanning past matches whose signature check fails; return
the Exif header offset of the first match that passes (`some (some off)`),
`some none` for the `-1` no-match result, `none` when a read threw. -/
def findExifMarkerGo (buf : Buf) : Nat → Nat → Option (Option Nat)
  | 0, _ => some none
  | fuel + 1, i =>
    if i + 1 < buf.length then
      if buf.getD i 0 = 0xFF ∧ buf.getD (i + 1) 0 = 0xE1 then
        match sigCheckAt buf i with
        | none => none
        | some true => some (some (i + 4))
        | some false => findExifMarkerGo buf fuel (i + 1)
      else findExifMarkerGo buf fuel (i + 1)
    else some none

/-- First copy's `findExifMarker` scan starting at index `i`. -/
def findExifMarkerFrom (buf : Buf) (i : Nat) : Option (Option Nat) :=
  findExifMarkerGo buf (buf.length - i) i

/-- Second copy's scan loop from index `i`: at the first `0xFF 0xE1` match
it reads the (unused) segment length, checks the signature, and breaks
whether or not the check passes. -/
def scanV2Go (buf : Buf) : Nat → Nat → Option (Option Nat)
  | 0, _ => some none
  | fuel + 1, i =>
    if i + 1 < buf.length then
      if buf.getD i 0 = 0xFF ∧ buf.getD (i + 1) 0 = 0xE1 then
        match getUint16? buf (i + 2) true with
        | none => none
        | some _ =>
          match sigCheckAt buf i with
          | none => none
          | some true => some (some (i + 4))
          | some false => some none
      else scanV2Go buf fuel (i + 1)
    else some none

/-- Second copy's scan starting at index `i`. -/
def scanV2From (buf : Buf) (i : Nat) : Option (Option Nat) :=
  scanV2Go buf (buf.length - i) i

/-- The shared TIFF sub-stream processing both copies run once an Exif
header offset is selected: read the endianness marker (big-endian iff
`0x4D4D`), record `byteOrder`, read the IFD0 pointer with that endianness
and walk IFD0.  The boolean is `true` when an uncaught overrun escaped. -/
def processExifAt (buf : Buf) (off : Nat) : ExifMap × Bool :=
  match getUint16? buf (off + 6) true with
  | none => ([], true)
  | some bo =>
    let m1 : ExifMap :=
      setKey [] "byteOrder"
        (TagValue.str (if bo == 0x4D4D then "Big Endian" else "Little Endian"))
    match getUint32? buf (off + 6 + 4) (bo == 0x4D4D) with
    | none => (m1, true)
    | some p => parseIfd buf (off + 6 + p) (off + 6) (bo == 0x4D4D) m1

/-- The catch handler of both `extractExifData` copies: an escaped overrun
is recorded as an `error` entry on the partially filled record. -/
def finishProcess (buf : Buf) (off : Nat) : ExifMap :=
  let r := processExifAt buf off
  if r.2 then setKey r.1 "error" (TagValue.str "Failed to parse EXIF data") else r.1

/-- First copy's `extractExifData` (module level, via `findExifMarker`). -/
def extractExifData (buf : Buf) : ExifMap :=
  match findExifMarkerFrom buf 0 with
  | none => setKey [] "error" (TagValue.str "Failed to parse EXIF data")
  | some none => []
  | some (some off) => finishProcess buf off

/-- Second copy's `extractExifData` (component level, inline scan that
breaks at the first marker match). -/
def extractExifData2 (buf : Buf) : ExifMap :=
  match scanV2From buf 0 with
  | none => setKey [] "error" (TagValue.str "Failed to parse EXIF data")
  | some none => []
  | some (some off) => finishProcess buf off

/-- `extractTiffExifData`: bare-TIFF path — endianness marker at offset 0,
magic number `42` at offset 2, IFD0 pointer at offset 4, walker invoked
with `tiffOffset = 0`; every throw path is caught into an `error` entry. -/
def extractTiffExifData (buf : Buf) : ExifMap :=
  match getUint16? buf 0 true with
  | none => setKey [] "error" (TagValue.str "Failed to parse TIFF EXIF data")
  | some bo =>
    let m1 : ExifMap :=
      setKey [] "byteOrder"
        (TagValue.str (if bo == 0x4D4D then "Big Endian (MM)" else "Little Endian (II)"))
    match getUint16? buf 2 (bo == 0x4D4D) with
    | none => setKey m1 "error" (TagValue.str "Failed to parse TIFF EXIF data")
    | some magic =>
      if magic = 42 then
        let m2 := setKey m1 "format" (TagValue.str "Valid TIFF")
        match getUint32? buf 4 (bo == 0x4D4D) with
        | none => setKey m2 "error" (TagValue.str "Failed to parse TIFF EXIF data")
        | some ifd0 =>
          let r := parseIfd buf ifd0 0 (bo == 0x4D4D) m2
          if r.2 then setKey r.1 "error" (TagValue.str "Failed to parse TIFF EXIF data")
          else r.1
      else setKey m1 "error" (TagValue.str "Invalid TIFF magic number")

/-- `convertBufferToString`: byte-for-byte text view of the first 65536
bytes, one byte mapped to one character. -/
def convertBufferToString (buf : Buf) : List Char :=
  (buf.take 65536).map Char.ofNat

/-- `String.prototype.indexOf` for a pattern over a character list
(fuel-indexed; the bound guard makes fuel `s.length + 1` sufficient). -/
def firstIdxOfGo (s pat : List Char) : Nat → Nat → Option Nat
  | 0, _ => none
  | fuel + 1, i =>
    if i + pat.length ≤ s.length then
      if pat.isPrefixOf (s.drop i) then some i else firstIdxOfGo s pat fuel (i + 1)
    else none

/-- First occurrence index of `pat` in `s`, or `none`. -/
def firstIdxOf (s pat : List Char) : Option Nat :=
  firstIdxOfGo s pat (s.length + 1) 0

/-- `String.prototype.substring`: clamp both arguments to the length and
swap them when out of order. -/
def jsSubstring (s : List Char) (a b : Nat) : List Char :=
  ((s.drop (min (min a s.length) (min b s.length))).take
    (max (min a s.length) (min b s.length) - min (min a s.length) (min b s.length)))

/-- Case-insensitive literal prefix test. -/
def ciPrefix (pat s : List Char) : Bool :=
  (pat.map Char.toLower).isPrefixOf (s.map Char.toLower)

/-- Index of the first `'>'` character in `s` (the `[^>]*>` step of the
XMP element patterns). -/
def findGtGo (s : List Char) : Nat → Nat → Option Nat
  | 0, _ => none
  | fuel + 1, i =>
    if i < s.length then
      if s.getD i ' ' = '>' then some i else findGtGo s fuel (i + 1)
    else none

/-- First index of `'>'` in `s`. -/
def findGt (s : List Char) : Option Nat :=
  findGtGo s s.length 0

/-- Match one `<tag[^>]*>([^<]+)</tag>` element at position `i` of
`content`, returning the capture. -/
def xmpElemAt (content ot ct : List Char) (i : Nat) : Option (List Char) :=
  if ciPrefix ot (content.drop i) then
    let rest2 := content.drop (i + ot.length)
    match findGt rest2 with
    | none => none
    | some g =>
      let rest3 := rest2.drop (g + 1)
      let cap := rest3.takeWhile (fun c => c ≠ '<')
      if cap.length = 0 then none
      else if ciPrefix ct (rest3.drop cap.length) then some cap else none
  else none

/-- Leftmost match of an XMP element pattern over `content`
(fuel-indexed; fuel `content.length` is sufficient). -/
def xmpElemSearchGo (content ot ct : List Char) : Nat → Nat → Option (List Char)
  | 0, _ => none
  | fuel + 1, i =>
    if i < content.length then
      match xmpElemAt content ot ct i with
      | some cap => some cap
      | none => xmpElemSearchGo content ot ct fuel (i + 1)
    else none

/-- Leftmost match of an XMP element pattern over `content`. -/
def xmpElemSearch (content ot ct : List Char) : Option (List Char) :=
  xmpElemSearchGo content ot ct content.length 0

/-- `extractXmpMetadata`: opportunistic `dc:title` / `dc:creator` capture
over the (untruncated) packet fragment. -/
def extractXmpMetadata (content : List Char) : ExifMap :=
  let t := xmpElemSearch content "<dc:title".data "</dc:title>".data
  let c := xmpElemSearch content "<dc:creator".data "</dc:creator>".data
  (match t with
   | some cap => [("title", TagValue.str (String.mk cap))]
   | none => []) ++
  (match c with
   | some cap => [("creator", TagValue.str (String.mk cap))]
   | none => [])

/-- `Object.assign`: sequential property assignment. -/
def assignAll (m : ExifMap) (ext : ExifMap) : ExifMap :=
  ext.foldl (fun acc kv => setKey acc kv.1 kv.2) m

/-- `processXmpPacket`: locate both packet delimiters (first occurrences,
independently); when both are present store the truncated raw excerpt and
set the detected flag, else store the fixed note. -/
def xpacketBeginPat : List Char := "<?xpacket begin=".data

def xpacketEndPat : List Char := "<?xpacket end=".data

def processXmpPacket (fs : List Char) : ExifMap :=
  match firstIdxOf fs xpacketBeginPat, firstIdxOf fs xpacketEndPat with
  | some s, some e =>
    let content := jsSubstring fs s (e + 20)
    let m1 := setKey [] "rawXMP"
      (TagValue.str (String.mk (jsSubstring content 0 500 ++ "...".data)))
    let m2 := setKey m1 "detected" (TagValue.flag true)
    assignAll m2 (extractXmpMetadata content)
  | _, _ =>
    setKey (setKey [] "detected" (TagValue.flag false)) "note"
      (TagValue.str "No XMP packet found in image")

/-- A JPEG buffer whose single `0xFF 0xE1` segment carries a valid
`Exif\x00\x00` signature and a little-endian TIFF sub-stream with an empty
IFD0. -/
def goodBuf : Buf :=
  [0xFF, 0xE1, 0x00, 0x00, 0x45, 0x78, 0x69, 0x66, 0x00, 0x00,
   0x49, 0x49, 0x2A, 0x00, 0x08, 0x00, 0x00, 0x00, 0x00, 0x00]

/-- A JPEG buffer whose first `0xFF 0xE1` match (at 0) fails the Exif
signature check while a later one (at 10) passes. -/
def decoyBuf : Buf :=
  [0xFF, 0xE1, 0, 0, 0, 0, 0, 0, 0, 0,
   0xFF, 0xE1, 0, 0, 0x45, 0x78, 0x69, 0x66, 0, 0,
   0x49, 0x49, 0x2A, 0x00, 0x08, 0, 0, 0, 0, 0]

/-- A JPEG buffer with a valid Exif signature whose TIFF sub-stream starts
with the endianness marker `0x00 0x00` — neither `MM` nor `II`. -/
def bufC9 : Buf :=
  [0xFF, 0xE1, 0, 0, 0x45, 0x78, 0x69, 0x66, 0, 0,
   0, 0, 0, 0, 0x0C, 0, 0, 0, 0, 0, 0, 0, 0, 0]

/-- A bare big-endian TIFF buffer with magic number 42 and an empty IFD0. -/
def bufT : Buf := [0x4D, 0x4D, 0x00, 0x2A, 0, 0, 0, 8, 0, 0]

/-- A buffer whose text view holds the end delimiter of an XMP packet
before the begin delimiter. -/
def bufC8 : Buf := "<?xpacket end=<?xpacket begin=".data.map Char.toNat

/-- A buffer whose text view holds a begin-then-end XMP packet pair. -/
def bufC8w : Buf := "<?xpacket begin=x<?xpacket end=y".data.map Char.toNat

theorem readAsciiChars_spec (buf : Buf) : ∀ n off l, readAsciiChars buf off n = some l →
    l.length = n ∧ ∀ i, i < n → l.getD i 'A' = Char.ofNat (buf.getD (off + i) 0) := by
  intro n
  induction n with
  | zero =>
    intro off l h
    simp only [readAsciiChars] at h
    injection h with h
    subst h
    exact ⟨rfl, by intro i hi; omega⟩
  | succ k ih =>
    intro off l h
    simp only [readAsciiChars] at h
    cases h8 : getUint8? buf off with
    | none => rw [h8] at h; cases h
    | some b =>
      rw [h8] at h
      cases hrec : readAsciiChars buf (off + 1) k with
      | none => rw [hrec] at h; cases h
      | some l2 =>
        rw [hrec] at h
        injection h with h
        subst h
        obtain ⟨hlen, hchars⟩ := ih (off + 1) l2 hrec
        have hb : b = buf.getD off 0 := by
          unfold getUint8? at h8
          split at h8
          · injection h8 with h8; exact h8.symm
          · cases h8
        refine ⟨by simp [hlen], ?_⟩
        intro i hi
        cases i with
        | zero => exact congrArg Char.ofNat hb
        | succ j =>
          have hj := hchars j (by omega)
          have harg : off + (j + 1) = off + 1 + j := by omega
          rw [harg]
          simpa using hj

/-- C2 (amended): for every ASCII tag read that completes, the returned
string has exactly `min (count - 1) 100` characters — hence at most 100,
not 99 — and character `i` is the one-byte decode of the byte at
`off + i`. -/
theorem c2_ascii_cap_amended : ∀ (buf : Buf) (off count : Nat) (s : String),
    readAsciiString buf off count = some s →
    s.length = min (count - 1) 100 ∧ s.length ≤ 100 ∧
    ∀ i, i < s.length → s.data.getD i 'A' = Char.ofNat (buf.getD (off + i) 0) := by
  intro buf off count s h
  unfold readAsciiString at h
  cases hc : readAsciiChars buf off (min (count - 1) 100) with
  | none => rw [hc] at h; cases h
  | some l =>
    rw [hc] at h
    injection h with h
    subst h
    obtain ⟨hlen, hchars⟩ := readAsciiChars_spec buf _ off l hc
    have hlen2 : (String.mk l).length = l.length := rfl
    refine ⟨by rw [hlen2, hlen], by rw [hlen2, hlen]; omega, ?_⟩
    intro i hi
    rw [hlen2, hlen] at hi
    exact hchars i hi

/-- C2 counterexample: with declared count 102 over a 100-byte buffer the
decoded ASCII string has 100 characters, refuting the 99-character cap. -/
theorem c2_ascii_cap_counterexample :
    readAsciiString (List.replicate 100 65) 0 102
      = some (String.mk (List.replicate 100 (Char.ofNat 65)))
    ∧ ¬ ((String.mk (List.replicate 100 (Char.ofNat 65))).length ≤ 99) := by
  constructor
  · decide
  · decide

/-- Witness for the amended C2 at a concrete input. -/
theorem c2_ascii_cap_amended_witness :
    readAsciiString (List.replicate 100 65) 0 102
      = some (String.mk (List.replicate 100 (Char.ofNat 65)))
    ∧ (String.mk (List.replicate 100 (Char.ofNat 65))).length = min (102 - 1) 100 :=
  ⟨by decide,
   (c2_ascii_cap_amended (List.replicate 100 65) 0 102
      (String.mk (List.replicate 100 (Char.ofNat 65))) (by decide)).1⟩

/-- C3: when the two consecutive 32-bit reads succeed, a zero denominator
yields exactly `0` (no divide-by-zero fault) and a nonzero denominator
yields the quotient of the two reads. -/
theorem c3_rational_zero_denominator :
    ∀ (buf : Buf) (off : Nat) (big : Bool) (num den : Nat),
    getUint32? buf off big = some num → getUint32? buf (off + 4) big = some den →
    (den = 0 → readRationalValue buf off big = some 0) ∧
    (den ≠ 0 → readRationalValue buf off big = some ((num : ℚ) / (den : ℚ))) := by
  intro buf off big num den h1 h2
  constructor <;> intro hd <;> simp [readRationalValue, h1, h2, hd]

/-- Witness for C3 at a concrete input with denominator 0. -/
theorem c3_rational_zero_denominator_witness :
    readRationalValue [0, 0, 0, 7, 0, 0, 0, 0] 0 true = some 0 :=
  (c3_rational_zero_denominator [0, 0, 0, 7, 0, 0, 0, 0] 0 true 7 0
    (by decide) (by decide)).1 rfl

/-- C4: the effective payload location is the inline position iff
`typeSize * count <= 4`; otherwise it is `tiffOffset` plus the 32-bit
pointer read at the inline position. -/
theorem c4_inline_pointer_rule :
    ∀ (buf : Buf) (valueOffset t count tiffOffset : Nat) (big : Bool),
    (getTypeSize t * count ≤ 4 →
       calculateActualOffset buf valueOffset t count tiffOffset big = some valueOffset) ∧
    (getTypeSize t * count > 4 → ∀ p, getUint32? buf valueOffset big = some p →
       calculateActualOffset buf valueOffset t count tiffOffset big = some (tiffOffset + p)) := by
  intro buf v t c toff big
  constructor
  · intro hle
    unfold calculateActualOffset
    rw [if_neg (by omega)]
  · intro hgt p hp
    unfold calculateActualOffset
    rw [if_pos hgt, hp]

/-- Witness for C4 at a concrete input. -/
theorem c4_inline_pointer_rule_witness :
    getTypeSize 3 * 1 ≤ 4 ∧ calculateActualOffset [] 9 3 1 0 true = some 9 :=
  ⟨by decide, (c4_inline_pointer_rule [] 9 3 1 0 true).1 (by decide)⟩

/-- C5 (amended): for a type code outside 1..5 the decoder returns `null`
whenever the inline/pointer resolution succeeds; its only possible fault is
the buffer overrun of that pointer-resolution read. -/
theorem c5_unknown_type_amended :
    ∀ (buf : Buf) (valueOffset t count tiffOffset : Nat) (big : Bool),
    t ≠ 1 → t ≠ 2 → t ≠ 3 → t ≠ 4 → t ≠ 5 →
    getTagValue buf valueOffset t count tiffOffset big =
      (calculateActualOffset buf valueOffset t count tiffOffset big).map
        (fun _ => TagValue.null) := by
  intro buf v t c toff big h1 h2 h3 h4 h5
  unfold getTagValue
  cases calculateActualOffset buf v t c toff big <;> simp [h1, h2, h3, h4, h5]

/-- C5 counterexample: with unknown type 6, count 5 and an empty buffer the
pointer-resolution read overruns, so the decoder raises (models as `none`)
instead of returning `null`. -/
theorem c5_unknown_type_counterexample :
    (6 : Nat) ∉ ([1, 2, 3, 4, 5] : List Nat) ∧ getTagValue [] 0 6 5 0 true = none := by
  constructor
  · decide
  · decide

/-- Witness for the amended C5 at a concrete input. -/
theorem c5_unknown_type_amended_witness :
    getTagValue [] 0 7 1 0 true = some TagValue.null := by
  have h := c5_unknown_type_amended [] 0 7 1 0 true
    (by decide) (by decide) (by decide) (by decide) (by decide)
  rw [h]
  decide

theorem parseIfdGo_eq_run (buf : Buf) (ifdOffset tiffOffset : Nat) (big : Bool) (n : Nat) :
    ∀ fuel i m, n ≤ i + fuel →
    parseIfdGo buf ifdOffset tiffOffset big n fuel i m
      = runEntries buf tiffOffset big
          ((List.range' i (n - i)).map (fun j => ifdOffset + 2 + j * 12)) m := by
  intro fuel
  induction fuel with
  | zero =>
    intro i m h
    have h0 : n - i = 0 := by omega
    simp [parseIfdGo, h0, runEntries]
  | succ f ih =>
    intro i m h
    by_cases hin : i < n
    · have hs : n - i = (n - (i + 1)) + 1 := by omega
      rw [hs, List.range'_succ, List.map_cons]
      simp only [parseIfdGo, runEntries, if_pos hin]
      by_cases h2 : (processIfdEntry buf (ifdOffset + 2 + i * 12) tiffOffset big m).2 = true
      · rw [if_pos h2, if_pos h2]
      · rw [if_neg h2, if_neg h2]
        exact ih (i + 1) _ (by omega)
    · have h0 : n - i = 0 := by omega
      simp [parseIfdGo, if_neg hin, h0, runEntries]

/-- C1: the IFD walk runs the entry processor over exactly the
`min(tagCount, 50)` entry offsets `ifdOffset + 2 + i * 12` — never more
than 50 entries, whatever 16-bit count the buffer declares. -/
theorem c1_ifd_walker_entry_cap :
    ∀ (buf : Buf) (ifdOffset tiffOffset : Nat) (big : Bool) (m : ExifMap) (tagCount : Nat),
    getUint16? buf ifdOffset big = some tagCount →
    parseIfd buf ifdOffset tiffOffset big m
      = runEntries buf tiffOffset big (ifdEntryOffsets ifdOffset (min tagCount 50)) m
    ∧ (ifdEntryOffsets ifdOffset (min tagCount 50)).length = min tagCount 50
    ∧ min tagCount 50 ≤ 50
    ∧ ∀ i, i < min tagCount 50 →
        (ifdEntryOffsets ifdOffset (min tagCount 50)).getD i 0 = ifdOffset + 2 + i * 12 := by
  intro buf ifdOffset tiffOffset big m tagCount h
  refine ⟨?_, by simp [ifdEntryOffsets], by omega, ?_⟩
  · unfold parseIfd
    simp only [h]
    have he := parseIfdGo_eq_run buf ifdOffset tiffOffset big (min tagCount 50)
      (min tagCount 50) 0 m (by omega)
    rw [he]
    simp [ifdEntryOffsets, List.range_eq_range']
  · intro i hi
    have hlen : i < (ifdEntryOffsets ifdOffset (min tagCount 50)).length := by
      simpa [ifdEntryOffsets] using hi
    rw [List.getD_eq_getElem _ _ hlen]
    simp [ifdEntryOffsets]

/-- Witness for C1 at a concrete input with an adversarial declared count
of `0xFFFF`. -/
theorem c1_ifd_walker_entry_cap_witness :
    getUint16? [255, 255] 0 true = some 65535 ∧ min 65535 50 ≤ 50 :=
  ⟨by decide, (c1_ifd_walker_entry_cap [255, 255] 0 0 true [] 65535 (by decide)).2.2.1⟩

/-- C7: on the bare-TIFF path, magic number 42 (read with the buffer's
endianness) leads to the IFD walker invoked with `tiffOffset = 0` on the
IFD0 offset read at offset 4; any other magic value records the error
`Invalid TIFF magic number` and decodes no tags (the result is total — no
condition reaches the caller). -/
theorem c7_tiff_magic :
    ∀ (buf : Buf) (bo magic : Nat),
    getUint16? buf 0 true = some bo →
    getUint16? buf 2 (bo == 0x4D4D) = some magic →
    (magic = 42 →
       extractTiffExifData buf =
         (match getUint32? buf 4 (bo == 0x4D4D) with
          | none =>
            setKey (setKey (setKey [] "byteOrder"
                (TagValue.str (if bo == 0x4D4D then "Big Endian (MM)" else "Little Endian (II)")))
                "format" (TagValue.str "Valid TIFF"))
              "error" (TagValue.str "Failed to parse TIFF EXIF data")
          | some ifd0 =>
            (fun r => if r.2 then setKey r.1 "error" (TagValue.str "Failed to parse TIFF EXIF data")
                      else r.1)
              (parseIfd buf ifd0 0 (bo == 0x4D4D)
                (setKey (setKey [] "byteOrder"
                    (TagValue.str (if bo == 0x4D4D then "Big Endian (MM)" else "Little Endian (II)")))
                  "format" (TagValue.str "Valid TIFF")))))
    ∧ (magic ≠ 42 →
        extractTiffExifData buf =
          [("byteOrder", TagValue.str (if bo == 0x4D4D then "Big Endian (MM)" else "Little Endian (II)")),
           ("error", TagValue.str "Invalid TIFF magic number")]) := by
  intro buf bo magic h0 h2
  constructor
  · intro hm
    subst hm
    unfold extractTiffExifData
    simp only [h0, h2]
    rw [if_pos trivial]
  · intro hm
    unfold extractTiffExifData
    simp only [h0, h2]
    rw [if_neg hm]
    rfl

/-- Witness for C7 at a concrete valid big-endian TIFF buffer. -/
theorem c7_tiff_magic_witness :
    extractTiffExifData bufT =
      [("byteOrder", TagValue.str "Big Endian (MM)"), ("format", TagValue.str "Valid TIFF")] := by
  have h := (c7_tiff_magic bufT 0x4D4D 42 (by decide) (by decide)).1 rfl
  rw [h]
  decide

theorem getUint32?_bound {buf : Buf} {o : Nat} {big : Bool} {w : Nat}
    (h : getUint32? buf o big = some w) : o + 4 ≤ buf.length := by
  unfold getUint32? at h
  split at h
  · assumption
  · cases h

theorem getUint16?_of_bound {buf : Buf} {o : Nat} (big : Bool)
    (h : o + 2 ≤ buf.length) : ∃ v, getUint16? buf o big = some v := by
  unfold getUint16?
  rw [if_pos h]
  exact ⟨_, rfl⟩

theorem sigCheckAt_bound {buf : Buf} {i : Nat} {b : Bool}
    (h : sigCheckAt buf i = some b) : i + 8 ≤ buf.length := by
  unfold sigCheckAt at h
  cases h32 : getUint32? buf (i + 4) true with
  | none => rw [h32] at h; cases h
  | some w => have := getUint32?_bound h32; omega

theorem findGo_congr (buf : Buf) : ∀ f1 i f2, buf.length ≤ i + f1 → buf.length ≤ i + f2 →
    findExifMarkerGo buf f1 i = findExifMarkerGo buf f2 i := by
  intro f1
  induction f1 with
  | zero =>
    intro i f2 h1 h2
    cases f2 with
    | zero => rfl
    | succ g =>
      have hg : ¬ (i + 1 < buf.length) := by omega
      simp only [findExifMarkerGo]
      rw [if_neg hg]
  | succ f ih =>
    intro i f2 h1 h2
    cases f2 with
    | zero =>
      have hg : ¬ (i + 1 < buf.length) := by omega
      simp only [findExifMarkerGo]
      rw [if_neg hg]
    | succ g =>
      simp only [findExifMarkerGo]
      by_cases hg : i + 1 < buf.length
      · rw [if_pos hg, if_pos hg]
        by_cases hp : buf.getD i 0 = 0xFF ∧ buf.getD (i + 1) 0 = 0xE1
        · rw [if_pos hp, if_pos hp]
          cases hsig : sigCheckAt buf i with
          | none => rfl
          | some b =>
            cases b with
            | true => rfl
            | false => exact ih (i + 1) g (by omega) (by omega)
        · rw [if_neg hp, if_neg hp]
          exact ih (i + 1) g (by omega) (by omega)
      · rw [if_neg hg, if_neg hg]

theorem scanRel (buf : Buf) : ∀ fuel i, buf.length ≤ i + fuel →
    (markerSearchGo buf fuel i = none →
       findExifMarkerGo buf fuel i = some none ∧ scanV2Go buf fuel i = some none)
  ∧ (∀ i0, markerSearchGo buf fuel i = some i0 →
      (sigCheckAt buf i0 = some false →
         findExifMarkerGo buf fuel i = findExifMarkerFrom buf (i0 + 1)
         ∧ scanV2Go buf fuel i = some none)
    ∧ (sigCheckAt buf i0 = some true →
         findExifMarkerGo buf fuel i = some (some (i0 + 4))
         ∧ scanV2Go buf fuel i = some (some (i0 + 4)))) := by
  intro fuel
  induction fuel with
  | zero =>
    intro i hle
    refine ⟨fun hm => ⟨rfl, rfl⟩, fun i0 hm => ?_⟩
    simp only [markerSearchGo] at hm
    cases hm
  | succ f ih =>
    intro i hle
    by_cases hg : i + 1 < buf.length
    · by_cases hp : buf.getD i 0 = 0xFF ∧ buf.getD (i + 1) 0 = 0xE1
      · have hm : markerSearchGo buf (f + 1) i = some i := by
          simp only [markerSearchGo]
          rw [if_pos hg, if_pos hp]
        constructor
        · intro h0
          rw [hm] at h0
          cases h0
        · intro i0 h0
          rw [hm] at h0
          injection h0 with h0
          subst h0
          constructor
          · intro hsig
            have hb := sigCheckAt_bound hsig
            obtain ⟨sv, hseg⟩ := getUint16?_of_bound true (show i + 2 + 2 ≤ buf.length by omega)
            constructor
            · simp only [findExifMarkerGo]
              rw [if_pos hg, if_pos hp, hsig]
              exact findGo_congr buf f (i + 1) (buf.length - (i + 1)) (by omega) (by omega)
            · simp only [scanV2Go]
              rw [if_pos hg, if_pos hp, hseg, hsig]
          · intro hsig
            have hb := sigCheckAt_bound hsig
            obtain ⟨sv, hseg⟩ := getUint16?_of_bound true (show i + 2 + 2 ≤ buf.length by omega)
            constructor
            · simp only [findExifMarkerGo]
              rw [if_pos hg, if_pos hp, hsig]
            · simp only [scanV2Go]
              rw [if_pos hg, if_pos hp, hseg, hsig]
      · have hm : markerSearchGo buf (f + 1) i = markerSearchGo buf f (i + 1) := by
          simp only [markerSearchGo]
          rw [if_pos hg, if_neg hp]
        have hf2 : findExifMarkerGo buf (f + 1) i = findExifMarkerGo buf f (i + 1) := by
          simp only [findExifMarkerGo]
          rw [if_pos hg, if_neg hp]
        have hs2 : scanV2Go buf (f + 1) i = scanV2Go buf f (i + 1) := by
          simp only [scanV2Go]
          rw [if_pos hg, if_neg hp]
        rw [hm, hf2, hs2]
        exact ih (i + 1) (by omega)
    · have hm1 : markerSearchGo buf (f + 1) i = none := by
        simp only [markerSearchGo]
        rw [if_neg hg]
      have hf1 : findExifMarkerGo buf (f + 1) i = some none := by
        simp only [findExifMarkerGo]
        rw [if_neg hg]
      have hs1 : scanV2Go buf (f + 1) i = some none := by
        simp only [scanV2Go]
        rw [if_neg hg]
      refine ⟨fun hm => ⟨hf1, hs1⟩, fun i0 hm => ?_⟩
      rw [hm1] at hm
      cases hm

/-- C6 (amended): the two copies differ at a failed signature check — the
second copy stops at the first `0xFF 0xE1` match and yields an empty
mapping when its signature check fails, while the first copy's scan
continues from the next index; when no marker match exists both mappings
are empty, and when the first match passes the signature check both decode
the TIFF sub-stream that begins 6 bytes after the Exif header. -/
theorem c6_exif_scan_amended : ∀ buf : Buf,
    (markerSearch buf = none → extractExifData buf = [] ∧ extractExifData2 buf = [])
  ∧ (∀ i0, markerSearch buf = some i0 → sigCheckAt buf i0 = some false →
       extractExifData2 buf = []
       ∧ findExifMarkerFrom buf 0 = findExifMarkerFrom buf (i0 + 1))
  ∧ (∀ i0, markerSearch buf = some i0 → sigCheckAt buf i0 = some true →
       extractExifData buf = finishProcess buf (i0 + 4)
       ∧ extractExifData2 buf = finishProcess buf (i0 + 4)) := by
  intro buf
  have h := scanRel buf buf.length 0 (by omega)
  have hfr : findExifMarkerFrom buf 0 = findExifMarkerGo buf buf.length 0 := by
    unfold findExifMarkerFrom
    rw [Nat.sub_zero]
  have hsr : scanV2From buf 0 = scanV2Go buf buf.length 0 := by
    unfold scanV2From
    rw [Nat.sub_zero]
  refine ⟨?_, ?_, ?_⟩
  · intro hm
    obtain ⟨hf, hs⟩ := h.1 hm
    constructor
    · unfold extractExifData
      rw [hfr, hf]
    · unfold extractExifData2
      rw [hsr, hs]
  · intro i0 hm hsig
    obtain ⟨hf, hs⟩ := (h.2 i0 hm).1 hsig
    constructor
    · unfold extractExifData2
      rw [hsr, hs]
    · rw [hfr]
      exact hf
  · intro i0 hm hsig
    obtain ⟨hf, hs⟩ := (h.2 i0 hm).2 hsig
    constructor
    · unfold extractExifData
      rw [hfr, hf]
    · unfold extractExifData2
      rw [hsr, hs]

/-- C6 counterexample: on `decoyBuf` the signature check at the first
`0xFF 0xE1` match fails, yet the first copy's EXIF mapping is not empty —
the scan moved on to a later passing segment. -/
theorem c6_first_match_counterexample :
    markerSearch decoyBuf = some 0 ∧ sigCheckAt decoyBuf 0 = some false
    ∧ extractExifData decoyBuf = [("byteOrder", TagValue.str "Little Endian")]
    ∧ ¬ (extractExifData decoyBuf = []) := by
  refine ⟨by decide, by decide, by decide, by decide⟩

/-- Witness for the amended C6: on `goodBuf` the first match passes the
signature check and the first copy decodes the sub-stream behind it. -/
theorem c6_exif_scan_amended_witness :
    markerSearch goodBuf = some 0 ∧ sigCheckAt goodBuf 0 = some true
    ∧ extractExifData goodBuf = finishProcess goodBuf 4 :=
  ⟨by decide, by decide,
   (((c6_exif_scan_amended goodBuf).2.2) 0 (by decide) (by decide)).1⟩

theorem lookup_setKey_ne : ∀ (m : ExifMap) (q : String) (v : TagValue) (k : String),
    ¬ (q = k) → lookupKey (setKey m q v) k = lookupKey m k := by
  intro m
  induction m with
  | nil =>
    intro q v k h
    simp [setKey, lookupKey, h]
  | cons kv rest ih =>
    intro q v k h
    obtain ⟨k1, v1⟩ := kv
    by_cases h1 : k1 = q
    · subst h1
      simp [setKey, lookupKey, h]
    · by_cases h2 : k1 = k
      · subst h2
        simp [setKey, lookupKey, h1]
      · simp [setKey, lookupKey, h1, h2, ih q v k h]

theorem find?_map_mem : ∀ (l : List (Nat × String)) (tag : Nat) (name : String),
    (l.find? (fun kv => kv.1 == tag)).map (fun kv => kv.2) = some name →
    name ∈ l.map (fun kv => kv.2) := by
  intro l
  induction l with
  | nil => intro tag name h; cases h
  | cons kv rest ih =>
    intro tag name h
    cases hb : (kv.1 == tag) with
    | true =>
      simp only [List.find?, hb, Option.map] at h
      injection h with h
      subst h
      exact List.mem_cons_self _ _
    | false =>
      simp only [List.find?, hb] at h
      exact List.mem_cons_of_mem _ (ih tag name h)

theorem exifTagName_ne_byteOrder : ∀ tag name, exifTagName tag = some name →
    ¬ (name = "byteOrder") := by
  intro tag name h hcontra
  subst hcontra
  unfold exifTagName at h
  have hm := find?_map_mem exifTagPairs tag "byteOrder" h
  revert hm
  decide

theorem processIfdEntry_keeps_byteOrder (buf : Buf) (o toff : Nat) (big : Bool) (m : ExifMap) :
    lookupKey (processIfdEntry buf o toff big m).1 "byteOrder" = lookupKey m "byteOrder" := by
  unfold processIfdEntry
  cases getUint16? buf o big with
  | none => rfl
  | some tag =>
    cases getUint16? buf (o + 2) big with
    | none => rfl
    | some t =>
      cases getUint32? buf (o + 4) big with
      | none => rfl
      | some count =>
        cases hname : exifTagName tag with
        | none => simp only [hname]
        | some name =>
          cases hv : getTagValue buf (o + 8) t count toff big with
          | none => simp only [hname, hv]
          | some v =>
            simp only [hname, hv]
            exact lookup_setKey_ne m name v "byteOrder" (exifTagName_ne_byteOrder tag name hname)

theorem parseIfdGo_keeps_byteOrder (buf : Buf) (o toff : Nat) (big : Bool) (n : Nat) :
    ∀ fuel i m, lookupKey (parseIfdGo buf o toff big n fuel i m).1 "byteOrder"
      = lookupKey m "byteOrder" := by
  intro fuel
  induction fuel with
  | zero => intro i m; rfl
  | succ f ih =>
    intro i m
    simp only [parseIfdGo]
    by_cases hin : i < n
    · rw [if_pos hin]
      by_cases h2 : (processIfdEntry buf (o + 2 + i * 12) toff big m).2 = true
      · rw [if_pos h2]
        exact processIfdEntry_keeps_byteOrder buf (o + 2 + i * 12) toff big m
      · rw [if_neg h2]
        rw [ih (i + 1) (processIfdEntry buf (o + 2 + i * 12) toff big m).1]
        exact processIfdEntry_keeps_byteOrder buf (o + 2 + i * 12) toff big m
    · rw [if_neg hin]

theorem parseIfd_keeps_byteOrder (buf : Buf) (o toff : Nat) (big : Bool) (m : ExifMap) :
    lookupKey (parseIfd buf o toff big m).1 "byteOrder" = lookupKey m "byteOrder" := by
  unfold parseIfd
  cases getUint16? buf o big with
  | none => rfl
  | some tagCount =>
    exact parseIfdGo_keeps_byteOrder buf o toff big (min tagCount 50) (min tagCount 50) 0 m

/-- C9 (amended): after the signature check succeeds the decoder does not
confirm the endianness marker — `0x4D4D` (`MM`) selects big-endian and
every other 16-bit value, `II` or otherwise, selects little-endian, the
endianness then used for the IFD0 pointer read and the walk. -/
theorem c9_endianness_amended :
    ∀ (buf : Buf) (off bo : Nat),
    findExifMarkerFrom buf 0 = some (some off) →
    getUint16? buf (off + 6) true = some bo → bo ≠ 0x4D4D →
    lookupKey (extractExifData buf) "byteOrder" = some (TagValue.str "Little Endian")
    ∧ extractExifData buf =
      (match getUint32? buf (off + 6 + 4) false with
       | none =>
         setKey (setKey [] "byteOrder" (TagValue.str "Little Endian")) "error"
           (TagValue.str "Failed to parse EXIF data")
       | some p =>
         (fun r => if r.2 then setKey r.1 "error" (TagValue.str "Failed to parse EXIF data")
                   else r.1)
           (parseIfd buf (off + 6 + p) (off + 6) false
             (setKey [] "byteOrder" (TagValue.str "Little Endian")))) := by
  intro buf off bo hfind hbo hne
  have hbeq : (bo == 0x4D4D) = false := by
    simp [hne]
  have hmain : extractExifData buf =
      (match getUint32? buf (off + 6 + 4) false with
       | none =>
         setKey (setKey [] "byteOrder" (TagValue.str "Little Endian")) "error"
           (TagValue.str "Failed to parse EXIF data")
       | some p =>
         (fun r => if r.2 then setKey r.1 "error" (TagValue.str "Failed to parse EXIF data")
                   else r.1)
           (parseIfd buf (off + 6 + p) (off + 6) false
             (setKey [] "byteOrder" (TagValue.str "Little Endian")))) := by
    unfold extractExifData
    simp only [hfind]
    unfold finishProcess processExifAt
    simp only [hbo, hbeq]
    cases hp : getUint32? buf (off + 6 + 4) false with
    | none => rfl
    | some p => rfl
  refine ⟨?_, hmain⟩
  rw [hmain]
  cases hp : getUint32? buf (off + 6 + 4) false with
  | none => rfl
  | some p =>
    simp only []
    by_cases h2 : (parseIfd buf (off + 6 + p) (off + 6) false
        (setKey [] "byteOrder" (TagValue.str "Little Endian"))).2 = true
    · rw [if_pos h2]
      rw [lookup_setKey_ne _ "error" _ "byteOrder" (by decide)]
      rw [parseIfd_keeps_byteOrder]
      decide
    · rw [if_neg h2]
      rw [parseIfd_keeps_byteOrder]
      decide

/-- C9 counterexample: a TIFF sub-stream whose endianness marker is
`0x0000` — neither `MM` nor `II` — is still accepted and decoded as
little-endian, refuting the only-`MM`-or-`II` claim. -/
theorem c9_endianness_counterexample :
    getUint16? bufC9 10 true = some 0 ∧ ¬ ((0 : Nat) = 0x4D4D) ∧ ¬ ((0 : Nat) = 0x4949)
    ∧ extractExifData bufC9 = [("byteOrder", TagValue.str "Little Endian")] := by
  refine ⟨by decide, by decide, by decide, by decide⟩

/-- Witness for the amended C9 at a concrete buffer with an `II` marker. -/
theorem c9_endianness_amended_witness :
    lookupKey (extractExifData goodBuf) "byteOrder" = some (TagValue.str "Little Endian") :=
  (c9_endianness_amended goodBuf 4 0x4949 (by decide) (by decide) (by decide)).1

/-- C10 (amended): the two near-duplicate JPEG EXIF extraction copies
produce equal mappings whenever no `0xFF 0xE1` match exists, or the first
match passes the Exif signature check; they diverge when the signature at
the first match fails (see the counterexample). -/
theorem c10_copies_agree_amended : ∀ buf : Buf,
    (markerSearch buf = none
     ∨ ∃ i0, markerSearch buf = some i0 ∧ sigCheckAt buf i0 = some true) →
    extractExifData buf = extractExifData2 buf := by
  intro buf h
  have hr := scanRel buf buf.length 0 (by omega)
  have hfr : findExifMarkerFrom buf 0 = findExifMarkerGo buf buf.length 0 := by
    unfold findExifMarkerFrom
    rw [Nat.sub_zero]
  have hsr : scanV2From buf 0 = scanV2Go buf buf.length 0 := by
    unfold scanV2From
    rw [Nat.sub_zero]
  cases h with
  | inl hnone =>
    obtain ⟨hf, hs⟩ := hr.1 hnone
    unfold extractExifData extractExifData2
    rw [hfr, hsr, hf, hs]
  | inr hsome =>
    obtain ⟨i0, hm, hsig⟩ := hsome
    obtain ⟨hf, hs⟩ := (hr.2 i0 hm).2 hsig
    unfold extractExifData extractExifData2
    rw [hfr, hsr, hf, hs]

/-- C10 counterexample: on `decoyBuf` — first marker match fails the
signature, a later one passes — the two copies produce different EXIF
mappings: copy 1 decodes the later segment, copy 2 returns the empty
mapping. -/
theorem c10_copies_differ_counterexample :
    extractExifData decoyBuf = [("byteOrder", TagValue.str "Little Endian")]
    ∧ extractExifData2 decoyBuf = []
    ∧ ¬ (extractExifData decoyBuf = extractExifData2 decoyBuf) := by
  refine ⟨by decide, by decide, by decide⟩

/-- Witness for the amended C10 at a concrete buffer whose first marker
match passes the signature check. -/
theorem c10_copies_agree_amended_witness :
    extractExifData goodBuf = extractExifData2 goodBuf :=
  c10_copies_agree_amended goodBuf (Or.inr ⟨0, by decide, by decide⟩)

theorem lookup_assign_xmp (m : ExifMap) (content : List Char) (k : String)
    (h1 : ¬ (k = "title")) (h2 : ¬ (k = "creator")) :
    lookupKey (assignAll m (extractXmpMetadata content)) k = lookupKey m k := by
  unfold extractXmpMetadata assignAll
  cases xmpElemSearch content "<dc:title".data "</dc:title>".data with
  | none =>
    cases xmpElemSearch content "<dc:creator".data "</dc:creator>".data with
    | none => rfl
    | some ccap =>
      show lookupKey (setKey m "creator" (TagValue.str (String.mk ccap))) k = lookupKey m k
      exact lookup_setKey_ne m "creator" _ k (fun hh => h2 hh.symm)
  | some tcap =>
    cases xmpElemSearch content "<dc:creator".data "</dc:creator>".data with
    | none =>
      show lookupKey (setKey m "title" (TagValue.str (String.mk tcap))) k = lookupKey m k
      exact lookup_setKey_ne m "title" _ k (fun hh => h1 hh.symm)
    | some ccap =>
      show lookupKey (setKey (setKey m "title" (TagValue.str (String.mk tcap))) "creator"
          (TagValue.str (String.mk ccap))) k = lookupKey m k
      rw [lookup_setKey_ne _ "creator" _ k (fun hh => h2 hh.symm)]
      exact lookup_setKey_ne m "title" _ k (fun hh => h1 hh.symm)

/-- C8 (amended): the detected flag is true exactly when both delimiter
substrings occur in the 65536-byte text view — in either order, the code
imposes no begin-before-end requirement; when both occur the stored raw
excerpt is the clamped substring from the begin index through the end
index + 20, truncated to its first 500 characters with dots appended, and
no note is stored; when either delimiter is missing the result is exactly
the flag-false fixed-note record, with no excerpt. -/
theorem c8_xmp_detection_amended : ∀ buf : Buf,
    (lookupKey (processXmpPacket (convertBufferToString buf)) "detected"
        = some (TagValue.flag true)
      ↔ (firstIdxOf (convertBufferToString buf) xpacketBeginPat).isSome
        ∧ (firstIdxOf (convertBufferToString buf) xpacketEndPat).isSome)
  ∧ (∀ s e, firstIdxOf (convertBufferToString buf) xpacketBeginPat = some s →
       firstIdxOf (convertBufferToString buf) xpacketEndPat = some e →
       lookupKey (processXmpPacket (convertBufferToString buf)) "rawXMP"
         = some (TagValue.str (String.mk
             (jsSubstring (jsSubstring (convertBufferToString buf) s (e + 20)) 0 500
               ++ "...".data)))
       ∧ lookupKey (processXmpPacket (convertBufferToString buf)) "note" = none)
  ∧ ((firstIdxOf (convertBufferToString buf) xpacketBeginPat = none
      ∨ firstIdxOf (convertBufferToString buf) xpacketEndPat = none) →
       processXmpPacket (convertBufferToString buf)
         = [("detected", TagValue.flag false),
            ("note", TagValue.str "No XMP packet found in image")]) := by
  intro buf
  cases hb : firstIdxOf (convertBufferToString buf) xpacketBeginPat with
  | none =>
    cases he : firstIdxOf (convertBufferToString buf) xpacketEndPat with
    | none =>
      have hres : processXmpPacket (convertBufferToString buf)
          = [("detected", TagValue.flag false),
             ("note", TagValue.str "No XMP packet found in image")] := by
        unfold processXmpPacket
        rw [hb, he]
        rfl
      refine ⟨?_, ?_, ?_⟩
      · rw [hres]
        constructor
        · intro h
          exact absurd h (by decide)
        · intro hcontra
          simp at hcontra
      · intro s e hb2 he2
        cases hb2
      · intro hor
        exact hres
    | some e0 =>
      have hres : processXmpPacket (convertBufferToString buf)
          = [("detected", TagValue.flag false),
             ("note", TagValue.str "No XMP packet found in image")] := by
        unfold processXmpPacket
        rw [hb, he]
        rfl
      refine ⟨?_, ?_, ?_⟩
      · rw [hres]
        constructor
        · intro h
          exact absurd h (by decide)
        · intro hcontra
          simp at hcontra
      · intro s e hb2 he2
        cases hb2
      · intro hor
        exact hres
  | some s0 =>
    cases he : firstIdxOf (convertBufferToString buf) xpacketEndPat with
    | none =>
      have hres : processXmpPacket (convertBufferToString buf)
          = [("detected", TagValue.flag false),
             ("note", TagValue.str "No XMP packet found in image")] := by
        unfold processXmpPacket
        rw [hb, he]
        rfl
      refine ⟨?_, ?_, ?_⟩
      · rw [hres]
        constructor
        · intro h
          exact absurd h (by decide)
        · intro hcontra
          simp at hcontra
      · intro s e hb2 he2
        cases he2
      · intro hor
        exact hres
    | some e0 =>
      have hres : processXmpPacket (convertBufferToString buf)
          = assignAll
              (setKey (setKey [] "rawXMP" (TagValue.str (String.mk
                  (jsSubstring (jsSubstring (convertBufferToString buf) s0 (e0 + 20)) 0 500
                    ++ "...".data))))
                "detected" (TagValue.flag true))
              (extractXmpMetadata
                (jsSubstring (convertBufferToString buf) s0 (e0 + 20))) := by
        unfold processXmpPacket
        rw [hb, he]
      refine ⟨?_, ?_, ?_⟩
      · rw [hres]
        refine iff_of_true ?_ ⟨rfl, rfl⟩
        rw [lookup_assign_xmp _ _ "detected" (by decide) (by decide)]
        rfl
      · intro s e hb2 he2
        injection hb2 with hb2
        subst hb2
        injection he2 with he2
        subst he2
        constructor
        · rw [hres, lookup_assign_xmp _ _ "rawXMP" (by decide) (by decide)]
          rfl
        · rw [hres, lookup_assign_xmp _ _ "note" (by decide) (by decide)]
          rfl
      · intro hor
        cases hor with
        | inl h => cases h
        | inr h => cases h

/-- C8 counterexample: a buffer whose end delimiter precedes its begin
delimiter is still detected, refuting the begin-before-end condition of
the claim. -/
theorem c8_xmp_order_counterexample :
    firstIdxOf (convertBufferToString bufC8) xpacketBeginPat = some 14
    ∧ firstIdxOf (convertBufferToString bufC8) xpacketEndPat = some 0
    ∧ ¬ (14 < 0)
    ∧ lookupKey (processXmpPacket (convertBufferToString bufC8)) "detected"
        = some (TagValue.flag true) := by
  refine ⟨by decide, by decide, by decide, by decide⟩

/-- Witness for the amended C8 at a concrete begin-then-end packet. -/
theorem c8_xmp_detection_amended_witness :
    firstIdxOf (convertBufferToString bufC8w) xpacketBeginPat = some 0
    ∧ lookupKey (processXmpPacket (convertBufferToString bufC8w)) "note" = none :=
  ⟨by decide, ((c8_xmp_detection_amended bufC8w).2.1 0 17 (by decide) (by decide)).2⟩
